import Mathlib

/-
Verification of the Enrolment Dates Field Checker pipeline
(Enrolment_Dates_Field_Checker.py).

Strings are modelled as lists of characters (Str := List Char); rows of the
tabular data are lists of strings.  Python string primitives (slicing with
negative indices, str.find returning -1, substring containment) are embedded
by pySlice / pyFind / strContains below, and each pipeline function is a
direct translation of the corresponding Python function.
-/

namespace EDFC

/-- A Python string: a list of characters. -/
abbrev Str := List Char

/-- A data row: an ordered sequence of string fields, position-addressed. -/
abbrev Row := List Str

/-- Field access `row[i]`.  In the source, rows always have enough columns at
the accessed positions; theorems that depend on this carry explicit length
hypotheses. -/
def fld (r : Row) (i : Nat) : Str := r.getD i []

/-- Normalisation of a Python slice index: negative indices count from the
end, and the result is clamped to [0, len]. -/
def pyIdx (len : Nat) (i : Int) : Nat :=
  (if i < 0 then i + len else i).toNat.min len

/-- Python slice `s[a:b]`. -/
def pySlice (s : Str) (a b : Int) : Str :=
  (s.take (pyIdx s.length b)).drop (pyIdx s.length a)

/-- Python slice `s[a:]`. -/
def pySliceFrom (s : Str) (a : Int) : Str := pySlice s a (s.length : Int)

/-- Python slice `s[:b]`. -/
def pySliceTo (s : Str) (b : Int) : Str := pySlice s 0 b

/-- First index at which `pat` occurs as a contiguous substring of `s`
(none when it does not occur).  `strFindOpt s [] = some 0`, as in Python. -/
def strFindOpt : Str → Str → Option Nat
  | [], pat => if pat = [] then some 0 else none
  | c :: rest, pat =>
      if (c :: rest).take pat.length = pat then some 0
      else (strFindOpt rest pat).map (· + 1)

/-- Python `s.find(pat)`: first occurrence index, or -1 when absent. -/
def pyFind (s pat : Str) : Int :=
  match strFindOpt s pat with
  | some i => (i : Int)
  | none => -1

/-- Python `pat in s` (substring containment). -/
def strContains (s pat : Str) : Bool := (strFindOpt s pat).isSome

/-- The student-id marker. -/
def fitnz : Str := "FitNZ".toList

/-- extract_date (lines 326-344): reorder the first 10 characters
"YYYY-MM-DD" of the input into "DD/MM/YYYY" using '/' separators. -/
def extract_date (date : Str) : Str :=
  let date_part := pySlice date 0 10
  let day := pySlice date_part 8 10
  let month := pySlice date_part 5 7
  let year := pySlice date_part 0 4
  day ++ ['/'] ++ month ++ ['/'] ++ year

/-- extract_student_id (lines 364-379): find 'FitNZ' in the data column and
return those characters plus the next four — `s[start:start+9]`. -/
def extract_student_id (student : Row) (data_pos : Nat) : Str :=
  let s := fld student data_pos
  let start := pyFind s fitnz
  pySlice s start (start + 9)

/-- extract_course_date (lines 288-323): find `date_text` in the data column,
then the first digit after it, then read the day up to the first '/', the
month up to the second '/', and the four characters after the second '/' as
the year.  The Python crashes (`m.start()` on None) when no digit follows;
that crash is modelled as `none`. -/
def extract_course_date (student : Row) (data_pos : Nat) (date_text : Str) :
    Option Str :=
  let s := fld student data_pos
  let dt := pyFind s date_text
  let remaining := pySliceFrom s dt
  match remaining.findIdx? (fun ch => ch.isDigit) with
  | none => none
  | some date_start =>
    let date_remaining := pySliceFrom remaining (date_start : Int)
    let first_slash := pyFind date_remaining ['/']
    let day := pySliceTo date_remaining first_slash
    let date_remaining_month := pySliceFrom date_remaining (first_slash + 1)
    let second_slash := pyFind date_remaining_month ['/']
    let month := pySliceTo date_remaining_month second_slash
    let year := pySlice date_remaining_month (second_slash + 1) (second_slash + 5)
    some (day ++ ['/'] ++ month ++ ['/'] ++ year)

/-- The inner `for c_student in custom_field` loop of compare
(lines 197-208): scan the secondary rows; at the first row whose id column
matches the primary row's id column, emit `[id, date]` when the date columns
differ and nothing when they agree, then break; emit nothing when no row
matches. -/
def compareInner (student : Row) (e_pos c_pos es_pos cs_pos : Nat) :
    List Row → List Row
  | [] => []
  | c_student :: rest =>
      if fld c_student cs_pos = fld student es_pos then
        if fld student e_pos ≠ fld c_student c_pos then
          [[fld student es_pos, fld student e_pos]]
        else []
      else compareInner student e_pos c_pos es_pos cs_pos rest

/-- compare (lines 181-209): accumulate, over the primary (enrolment) rows in
order, the change records produced by the inner loop over the secondary
(custom-field) rows. -/
def compare (enrolment custom_field : List Row) (e_pos c_pos : Nat)
    (es_pos : Nat := 0) (cs_pos : Nat := 0) : List Row :=
  enrolment.foldl
    (fun changes student =>
      changes ++ compareInner student e_pos c_pos es_pos cs_pos custom_field)
    []

/-- Concatenation of the images of a list-valued function, in order. -/
def catMap {α β : Type} (f : α → List β) : List α → List β
  | [] => []
  | x :: xs => f x ++ catMap f xs

/-- The per-row warning of check_ed (lines 105-107): a message when the
Student Name column (index 1) is empty. -/
def edRowWarnings (student : Row) : List Str :=
  if fld student 1 = [] then
    ["Student Name is missing for student with Student ID ".toList ++
      fld student 0]
  else []

/-- The per-row fatal errors of check_ed (lines 108-116): messages when the
Course (2), Enrolment Date (3) or Expiry Date (4) column is empty, in the
order the source checks them. -/
def edRowErrors (student : Row) : List Str :=
  (if fld student 2 = [] then
    ["Course is missing for student with Student ID ".toList ++ fld student 0]
   else []) ++
  (if fld student 3 = [] then
    ["Enrolment Date is missing for student with Student ID ".toList ++
      fld student 0]
   else []) ++
  (if fld student 4 = [] then
    ["Expiry Date is missing for student with Student ID ".toList ++
      fld student 0]
   else [])

/-- The error list accumulated by check_ed's scan over all rows. -/
def check_ed_errors (report_data : List Row) : List Str :=
  report_data.foldl (fun errors student => errors ++ edRowErrors student) []

/-- The warning list accumulated by check_ed's scan, starting from the fixed
header entry (line 102). -/
def check_ed_warnings (report_data : List Row) : List Str :=
  report_data.foldl (fun warnings student => warnings ++ edRowWarnings student)
    ["\nEnrolment Dates (Learning Platform) Report Warnings:\n".toList]

/-- check_ed (lines 80-125): scan every row; if the fatal error list is
non-empty afterwards, process_error_log runs and raises SystemExit
(modelled as `Except.error` carrying the error list); otherwise return the
warning flag (warnings longer than the initial header entry) and the
warning list. -/
def check_ed (report_data : List Row) : Except (List Str) (Bool × List Str) :=
  let errors := check_ed_errors report_data
  let warnings := check_ed_warnings report_data
  if errors.length > 0 then Except.error errors
  else if warnings.length > 1 then Except.ok (true, warnings)
  else Except.ok (false, warnings)

/-- load_data (lines 409-446), modelled on the rows parsed from the file
after the header line has been consumed (line 433); file-existence
re-prompting is interactive glue outside the model.  Rows whose first field
is empty are dropped (line 436; the csv reader yields strings, so the
`None` alternative never occurs).  For source 'ed' the check_ed call on
line 441 runs — its SystemExit propagates as `Except.error` — but its
returned flag and warning list are discarded, so the function's own
`warnings` list (line 422) stays empty and the returned flag is always
False. -/
def load_data (rows : List Row) (source : String) :
    Except (List Str) (List Row × Bool × List Str) :=
  let read_data := rows.filter (fun row => !(fld row 0 == []))
  if source = "ed" then
    match check_ed read_data with
    | Except.error e => Except.error e
    | Except.ok _ => Except.ok (read_data, false, [])
  else Except.ok (read_data, false, [])

/-- The file content written by save_data_upload (lines 621-631): the
headings line, then the accumulated `save_data` string, where each record
contributes its elements each followed by a comma (line 627), the final
comma removed by `line[:-1]` (line 629, dropLast), and a newline. -/
def save_data_upload_content (i_data : List Row) (headings : Str) : Str :=
  headings ++ ['\n'] ++
    i_data.foldl
      (fun save_data item =>
        save_data ++
          (item.foldl (fun line element => line ++ element ++ [',']) []).dropLast
          ++ ['\n'])
      []

/-- A row's fields joined by commas with no trailing comma — the spec's
wording for one output line ("comma-joined Change Record fields, no
trailing comma"). -/
def joinComma : List Str → Str
  | [] => []
  | [x] => x
  | x :: y :: xs => x ++ [','] ++ joinComma (y :: xs)

/-- The spec's wording for the whole output content: the header, a newline,
then one comma-joined line per record in input order, each line terminated
by a newline. -/
def specSerialize (records : List Row) (header : Str) : Str :=
  header ++ ['\n'] ++ catMap (fun r => joinComma r ++ ['\n']) records

/-- A concrete enrolment-dates row whose Student Name column (index 1) is
empty while the fatal columns Course, Enrolment Date and Expiry Date are
non-empty. -/
def c2row : Row :=
  ["FitNZ0001".toList, [], "Course A (ABC-12-XYZ)".toList,
   "2020-01-01".toList, "2020-02-01".toList]

/-- True when there is no newline strictly between positions `a` and `b`. -/
def noNewlineBetween (s : Str) (a b : Nat) : Bool :=
  ((s.drop (a + 1)).take (b - a - 1)).all (fun ch => ch != '\n')

/-- Success of `re.search` with the pattern of extract_course_code
(line 280): the text contains, left to right, a '(' preceded by at least one
non-newline character, then a '-', a second '-' and a ')', each literal
separated from the previous one by at least one character, with no newline
inside any of the dot-matched stretches. -/
def matchesCourseRe (s : Str) : Bool :=
  (List.range s.length).any fun q1 =>
    s.getD q1 ' ' == '(' && decide (1 ≤ q1) && (s.getD (q1 - 1) ' ' != '\n') &&
    ((List.range s.length).any fun q2 =>
      decide (q1 + 2 ≤ q2) && s.getD q2 ' ' == '-' && noNewlineBetween s q1 q2 &&
      ((List.range s.length).any fun q3 =>
        decide (q2 + 2 ≤ q3) && s.getD q3 ' ' == '-' &&
        noNewlineBetween s q2 q3 &&
        ((List.range s.length).any fun q4 =>
          decide (q3 + 2 ≤ q4) && s.getD q4 ' ' == ')' &&
          noNewlineBetween s q3 q4)))

/-- extract_course_code (lines 268-285): when the course-code pattern
matches, return `course[start+1:-1]` where `start` is the index of the first
'(' (guaranteed present by the match); otherwise return 'Skip'. -/
def extract_course_code (course : Str) : Str :=
  if matchesCourseRe course then
    let start := pyFind course ['(']
    pySlice course (start + 1) (-1)
  else "Skip".toList

/-
Heap model for the frame/mutation claim.  The Python lists of rows hold
references to mutable row objects; we model the objects by a heap (a list of
row values) and a Python list of rows by a list of heap indices.  A stage
that mutates a row writes through the reference; a stage that only reads
leaves the heap unchanged; a stage that builds new rows appends them to the
heap.
-/

/-- The heap of row objects. -/
abbrev Heap := List Row

/-- Dereference a row. -/
def readRow (h : Heap) (r : Nat) : Row := h.getD r []

/-- Assign through a row reference. -/
def writeRow (h : Heap) (r : Nat) (v : Row) : Heap := h.set r v

/-- Apply the in-place transformation `T` to each referenced row in order —
the shape of the `for student in ...: mutate student` loops. -/
def mutMap (T : Row → Row) : Heap → List Nat → Heap
  | h, [] => h
  | h, r :: rs => mutMap T (writeRow h r (T (readRow h r))) rs

/-- clean_date (lines 164-178): `student[date_pos] = extract_date(...)`
mutates each row object in place (line 176); the returned list contains the
same row references in order. -/
def clean_date (h : Heap) (students : List Nat) (date_pos : Nat) :
    Heap × List Nat :=
  (mutMap (fun s => s.set date_pos (extract_date (fld s date_pos))) h students,
   students)

/-- add_student_id (lines 60-77): `student.append(...)` (line 76) mutates
each row object of the shallow copy `list(students)` — the same objects the
input list holds; the returned list contains the same references. -/
def add_student_id (h : Heap) (students : List Nat) (data_pos : Nat) :
    Heap × List Nat :=
  (mutMap (fun s => s ++ [extract_student_id s data_pos]) h students, students)

/-- add_start_date (lines 39-57): appends the extracted Course Start Date to
each row object in place (line 56).  The Python raises when the extraction
fails; `Option.getD []` totalises that case, and the theorems about this
stage assume extraction succeeds. -/
def add_start_date (h : Heap) (students : List Nat) (data_pos : Nat) :
    Heap × List Nat :=
  (mutMap
    (fun s => s ++ [(extract_course_date s data_pos "Course Start Date".toList).getD []])
    h students, students)

/-- add_end_date (lines 18-36): appends the extracted Course End Date to
each row object in place (line 35), like add_start_date. -/
def add_end_date (h : Heap) (students : List Nat) (data_pos : Nat) :
    Heap × List Nat :=
  (mutMap
    (fun s => s ++ [(extract_course_date s data_pos "Course End Date".toList).getD []])
    h students, students)

/-- extract_students (lines 347-361): keep the rows whose data column
contains 'FitNZ'; only reads, no row is written and none is created. -/
def extract_students (h : Heap) (students : List Nat) (data_pos : Nat) :
    Heap × List Nat :=
  (h, students.filter (fun r => strContains (fld (readRow h r) data_pos) fitnz))

/-- get_courses (lines 392-406): keep the rows whose course column carries a
course code; only reads. -/
def get_courses (h : Heap) (students : List Nat) (course_pos : Nat) :
    Heap × List Nat :=
  (h, students.filter
    (fun r => !(extract_course_code (fld (readRow h r) course_pos) == "Skip".toList)))

/-- strip_cf_data (lines 677-696): build a fresh three-column row
(columns 5, 6, 7) for each input row; the new rows are fresh allocations
(appended to the heap) and the input rows are only read. -/
def strip_cf_data (h : Heap) (data : List Nat) : Heap × List Nat :=
  data.foldl
    (fun acc sref =>
      let s := readRow acc.1 sref
      (acc.1 ++ [[fld s 5, fld s 6, fld s 7]], acc.2 ++ [acc.1.length]))
    (h, [])

/-- compare at the heap level (lines 181-209): each emitted change record
`[student[es_pos], student[e_pos]]` (line 204) is a fresh allocation; the
enrolment and custom-field rows are only read. -/
def compare_st (h : Heap) (enrolment custom_field : List Nat)
    (e_pos c_pos es_pos cs_pos : Nat) : Heap × List Nat :=
  enrolment.foldl
    (fun acc sref =>
      match compareInner (readRow acc.1 sref) e_pos c_pos es_pos cs_pos
          (custom_field.map (readRow acc.1)) with
      | [] => acc
      | row :: _ => (acc.1 ++ [row], acc.2 ++ [acc.1.length]))
    (h, [])

/- ------------------------------------------------------------------ -/
/- Helper lemmas.                                                     -/
/- ------------------------------------------------------------------ -/

lemma foldl_append_eq_catMap {α β : Type} (g : List β → α → List β)
    (f : α → List β) (hg : ∀ acc x, g acc x = acc ++ f x) :
    ∀ (l : List α) (init : List β), l.foldl g init = init ++ catMap f l
  | [], init => by simp [catMap]
  | x :: xs, init => by
      rw [List.foldl_cons, hg, foldl_append_eq_catMap g f hg xs, catMap,
        List.append_assoc]

lemma catMap_congr {α β : Type} {f g : α → List β} :
    ∀ {l : List α}, (∀ x ∈ l, f x = g x) → catMap f l = catMap g l
  | [], _ => rfl
  | x :: xs, h => by
      rw [catMap, catMap, h x (List.mem_cons_self x xs),
        catMap_congr (fun y hy => h y (List.mem_cons_of_mem x hy))]

lemma catMap_ne_nil {α β : Type} (f : α → List β) :
    ∀ {l : List α} {x : α}, x ∈ l → f x ≠ [] → catMap f l ≠ []
  | y :: ys, x, hx, hf => by
      rcases List.mem_cons.mp hx with rfl | hm
      · rw [catMap]
        intro hc
        exact hf (List.append_eq_nil.mp hc).1
      · rw [catMap]
        intro hc
        exact catMap_ne_nil f hm hf (List.append_eq_nil.mp hc).2

lemma strFindOpt_spec :
    ∀ {s pat : Str} {i : Nat}, strFindOpt s pat = some i →
      i ≤ s.length ∧ (s.drop i).take pat.length = pat := by
  intro s
  induction s with
  | nil =>
      intro pat i h
      by_cases hp : pat = []
      · subst hp
        simp [strFindOpt] at h
        subst h
        simp
      · simp [strFindOpt, hp] at h
  | cons c rest ih =>
      intro pat i h
      rw [strFindOpt] at h
      by_cases hc : (c :: rest).take pat.length = pat
      · rw [if_pos hc] at h
        cases h
        exact ⟨Nat.zero_le _, hc⟩
      · rw [if_neg hc] at h
        rcases Option.map_eq_some'.mp h with ⟨j, hj, rfl⟩
        obtain ⟨hle, htake⟩ := ih hj
        exact ⟨by simpa using Nat.succ_le_succ hle, htake⟩

lemma strFindOpt_singleton {c : Char} :
    ∀ {day r : Str}, c ∉ day → strFindOpt (day ++ c :: r) [c] = some day.length
  | [], r, _ => by
      rw [List.nil_append, strFindOpt]
      simp
  | d :: day, r, hc => by
      have hd : d ≠ c := fun he => hc (he ▸ List.mem_cons_self d day)
      have hm : c ∉ day := fun hm => hc (List.mem_cons_of_mem d hm)
      rw [List.cons_append, strFindOpt]
      rw [if_neg (by simpa using hd)]
      rw [strFindOpt_singleton hm]
      rfl

lemma pyIdx_natCast (len a : Nat) : pyIdx len (a : Int) = min a len := by
  unfold pyIdx
  rw [if_neg (by omega : ¬ ((a : Int) < 0))]
  rw [Int.toNat_natCast]

lemma take_min_length {α : Type} (s : List α) (b : Nat) :
    s.take (min b s.length) = s.take b := by
  rcases Nat.le_total b s.length with h | h
  · rw [Nat.min_eq_left h]
  · rw [Nat.min_eq_right h, List.take_length, List.take_of_length_le h]

lemma pySlice_nat (s : Str) (a b : Nat) (ha : a ≤ s.length) :
    pySlice s (a : Int) (b : Int) = (s.drop a).take (b - a) := by
  unfold pySlice
  rw [pyIdx_natCast, pyIdx_natCast, Nat.min_eq_left ha, take_min_length,
    List.drop_take]

lemma pySliceFrom_nat (s : Str) (a : Nat) (ha : a ≤ s.length) :
    pySliceFrom s (a : Int) = s.drop a := by
  unfold pySliceFrom
  rw [pySlice_nat s a s.length ha,
    List.take_of_length_le (by rw [List.length_drop])]

lemma pySliceTo_nat (s : Str) (b : Nat) :
    pySliceTo s (b : Int) = s.take b := by
  unfold pySliceTo
  have h0 : ((0 : Nat) : Int) = (0 : Int) := rfl
  rw [← h0, pySlice_nat s 0 b (Nat.zero_le _), List.drop_zero, Nat.sub_zero]

lemma readRow_writeRow_ne (h : Heap) (a r : Nat) (v : Row) (hne : a ≠ r) :
    readRow (writeRow h a v) r = readRow h r := by
  unfold readRow writeRow
  rw [List.getD_eq_getElem?_getD, List.getD_eq_getElem?_getD,
    List.getElem?_set_ne hne]

lemma readRow_writeRow_self (h : Heap) (a : Nat) (v : Row)
    (ha : a < h.length) : readRow (writeRow h a v) a = v := by
  unfold readRow writeRow
  rw [List.getD_eq_getElem?_getD, List.getElem?_set_self ha]
  rfl

lemma mutMap_length (T : Row → Row) :
    ∀ (refs : List Nat) (h : Heap), (mutMap T h refs).length = h.length
  | [], _ => rfl
  | r :: rs, h => by
      rw [mutMap, mutMap_length T rs]
      unfold writeRow
      rw [List.length_set]

lemma mutMap_read_notMem (T : Row → Row) :
    ∀ (refs : List Nat) (h : Heap) (r : Nat), r ∉ refs →
      readRow (mutMap T h refs) r = readRow h r
  | [], _, _, _ => rfl
  | a :: rs, h, r, hr => by
      have h1 : r ∉ rs := fun hm => hr (List.mem_cons_of_mem _ hm)
      have h2 : a ≠ r := fun he => hr (he ▸ List.mem_cons_self _ _)
      rw [mutMap, mutMap_read_notMem T rs _ r h1, readRow_writeRow_ne _ _ _ _ h2]

lemma mutMap_read_mem (T : Row → Row) :
    ∀ (refs : List Nat) (h : Heap) (r : Nat), refs.Nodup → r ∈ refs →
      r < h.length → readRow (mutMap T h refs) r = T (readRow h r)
  | [], _, _, _, hmem, _ => absurd hmem (List.not_mem_nil _)
  | a :: rs, h, r, hnd, hmem, hlt => by
      rcases List.mem_cons.mp hmem with rfl | hm
      · have hna : r ∉ rs := (List.nodup_cons.mp hnd).1
        rw [mutMap, mutMap_read_notMem T rs _ r hna,
          readRow_writeRow_self _ _ _ hlt]
      · have hne : a ≠ r := by
          rintro rfl
          exact (List.nodup_cons.mp hnd).1 hm
        rw [mutMap,
          mutMap_read_mem T rs _ r (List.nodup_cons.mp hnd).2 hm
            (by unfold writeRow; rw [List.length_set]; exact hlt),
          readRow_writeRow_ne _ _ _ _ hne]

lemma foldl_fst_append {σ : Type} (step : (Heap × σ) → Nat → (Heap × σ))
    (hstep : ∀ acc x, ∃ ext, (step acc x).1 = acc.1 ++ ext) :
    ∀ (l : List Nat) (h : Heap) (s : σ),
      ∃ ext, (l.foldl step (h, s)).1 = h ++ ext
  | [], h, s => ⟨[], by simp⟩
  | x :: l, h, s => by
      obtain ⟨e2, he2⟩ :=
        foldl_fst_append step hstep l (step (h, s) x).1 (step (h, s) x).2
      obtain ⟨e1, he1⟩ := hstep (h, s) x
      refine ⟨e1 ++ e2, ?_⟩
      rw [List.foldl_cons, ← Prod.mk.eta (p := step (h, s) x), he2, he1,
        List.append_assoc]

lemma readRow_append (h ext : Heap) (r : Nat) (hr : r < h.length) :
    readRow (h ++ ext) r = readRow h r := by
  unfold readRow
  exact List.getD_append h ext [] r hr

lemma compare_eq_catMap (enrolment custom_field : List Row)
    (e_pos c_pos es_pos cs_pos : Nat) :
    compare enrolment custom_field e_pos c_pos es_pos cs_pos
      = catMap (fun s => compareInner s e_pos c_pos es_pos cs_pos custom_field)
          enrolment := by
  unfold compare
  rw [foldl_append_eq_catMap _ _ (fun acc x => rfl), List.nil_append]

lemma compareInner_eq_find (s : Row) (e_pos c_pos es_pos cs_pos : Nat) :
    ∀ cu : List Row,
      compareInner s e_pos c_pos es_pos cs_pos cu =
        match cu.find? (fun cst => fld cst cs_pos == fld s es_pos) with
        | none => []
        | some cst =>
            if fld s e_pos ≠ fld cst c_pos then
              [[fld s es_pos, fld s e_pos]]
            else []
  | [] => rfl
  | cst :: rest => by
      by_cases hm : fld cst cs_pos = fld s es_pos
      · rw [compareInner, if_pos hm, List.find?_cons_of_pos _ (by simpa using hm)]
      · rw [compareInner, if_neg hm,
          List.find?_cons_of_neg _ (by simpa using hm),
          compareInner_eq_find s e_pos c_pos es_pos cs_pos rest]

lemma check_ed_errors_eq (report_data : List Row) :
    check_ed_errors report_data = catMap edRowErrors report_data := by
  unfold check_ed_errors
  rw [foldl_append_eq_catMap _ _ (fun acc x => rfl), List.nil_append]

lemma check_ed_warnings_eq (report_data : List Row) :
    check_ed_warnings report_data =
      ["\nEnrolment Dates (Learning Platform) Report Warnings:\n".toList] ++
        catMap edRowWarnings report_data := by
  unfold check_ed_warnings
  rw [foldl_append_eq_catMap _ _ (fun acc x => rfl)]

lemma comma_foldl (item : Row) :
    ∀ a : Str,
      item.foldl (fun line element => line ++ element ++ [',']) a
        = a ++ catMap (fun e => e ++ [',']) item := by
  have := foldl_append_eq_catMap
    (fun (line : Str) (element : Str) => line ++ element ++ [','])
    (fun e => e ++ [',']) (fun acc x => by dsimp only; rw [List.append_assoc])
    item
  intro a
  exact this a

lemma dropLast_commaCat :
    ∀ item : Row, (catMap (fun e => e ++ [',']) item).dropLast = joinComma item
  | [] => rfl
  | [x] => by
      rw [catMap, catMap, List.append_nil, joinComma, List.dropLast_concat]
  | x :: y :: rest => by
      have hne : catMap (fun e => e ++ [',']) (y :: rest) ≠ [] := by
        rw [catMap]
        intro hc
        have := (List.append_eq_nil.mp hc).1
        simp at this
      rw [catMap, List.dropLast_append_of_ne_nil _ hne,
        dropLast_commaCat (y :: rest), joinComma]

/- ------------------------------------------------------------------ -/
/- Claim theorems.                                                    -/
/- ------------------------------------------------------------------ -/

/-- C1: compare emits, for each primary row in order, one change record
`[id, primary date]` exactly when the first secondary row with a matching id
has a differing date; an equal-date first match or a missing match emits
nothing.  In particular, primary [["1","01/01/2020"]] against secondary
[["1","02/01/2020"]] yields exactly [["1","01/01/2020"]], identical dates
yield the empty list, and disjoint ids yield the empty list. -/
theorem c1_compare_first_match :
    (∀ (enrolment custom_field : List Row) (e_pos c_pos es_pos cs_pos : Nat),
      compare enrolment custom_field e_pos c_pos es_pos cs_pos =
        catMap
          (fun s =>
            match custom_field.find?
                (fun cst => fld cst cs_pos == fld s es_pos) with
            | none => []
            | some cst =>
                if fld s e_pos ≠ fld cst c_pos then
                  [[fld s es_pos, fld s e_pos]]
                else [])
          enrolment)
    ∧ compare [["1".toList, "01/01/2020".toList]]
        [["1".toList, "02/01/2020".toList]] 1 1
        = [["1".toList, "01/01/2020".toList]]
    ∧ compare [["1".toList, "01/01/2020".toList]]
        [["1".toList, "01/01/2020".toList]] 1 1 = []
    ∧ compare [["1".toList, "01/01/2020".toList]]
        [["2".toList, "02/01/2020".toList]] 1 1 = [] := by
  refine ⟨?_, by decide, by decide, by decide⟩
  intro enrolment custom_field e_pos c_pos es_pos cs_pos
  rw [compare_eq_catMap]
  exact catMap_congr
    (fun s _ => compareInner_eq_find s e_pos c_pos es_pos cs_pos custom_field)

/-- C7: the output of compare depends, for each primary row, only on the
first secondary row whose id matches: whenever two secondary row sets give
the same first match for every primary row (as they do when rows after the
first match are altered, duplicated, or removed), the results coincide. -/
theorem c7_first_match_only (enrolment custom_field custom_field' : List Row)
    (e_pos c_pos es_pos cs_pos : Nat)
    (hf : ∀ s ∈ enrolment,
      custom_field.find? (fun cst => fld cst cs_pos == fld s es_pos)
        = custom_field'.find? (fun cst => fld cst cs_pos == fld s es_pos)) :
    compare enrolment custom_field e_pos c_pos es_pos cs_pos
      = compare enrolment custom_field' e_pos c_pos es_pos cs_pos := by
  rw [compare_eq_catMap, compare_eq_catMap]
  exact catMap_congr fun s hs => by
    rw [compareInner_eq_find, compareInner_eq_find, hf s hs]

/-- C7 witness: duplicating the id "1" with a different date after the first
matching secondary row does not change the result. -/
theorem c7_first_match_only_witness :
    compare [["1".toList, "01/01/2020".toList]]
      [["1".toList, "02/01/2020".toList], ["1".toList, "03/01/2020".toList]]
      1 1 0 0
    = compare [["1".toList, "01/01/2020".toList]]
      [["1".toList, "02/01/2020".toList]] 1 1 0 0 :=
  c7_first_match_only _ _ _ 1 1 0 0 (by decide)

/-- C8: the content written by save_data_upload is the header line followed,
for each change record in input order, by one line of the record's fields
joined by commas with no trailing comma, each line ending in a newline. -/
theorem c8_save_serialization (i_data : List Row) (headings : Str) :
    save_data_upload_content i_data headings = specSerialize i_data headings := by
  unfold save_data_upload_content specSerialize
  rw [foldl_append_eq_catMap _
    (fun item =>
      (item.foldl (fun line element => line ++ element ++ [',']) []).dropLast
        ++ ['\n'])
    (fun acc x => by dsimp only; rw [List.append_assoc]) i_data,
    List.nil_append]
  rw [catMap_congr (fun item _ => by
    rw [comma_foldl item [], List.nil_append, dropLast_commaCat item])]

/-- C2: on an enrolment-dates load whose data has a row with an empty
Student Name but all fatal columns present, check_ed does identify the
warning (flag True, warning list longer than its fixed header entry) and the
load proceeds — but load_data discards check_ed's return value (line 441),
so the triple it returns carries flag False and an empty warning list,
contradicting its own docstring and the claim. -/
theorem c2_warnings_dropped :
    load_data [c2row] "ed" = Except.ok ([c2row], false, [])
    ∧ check_ed [c2row] = Except.ok (true, check_ed_warnings [c2row])
    ∧ 1 < (check_ed_warnings [c2row]).length :=
  ⟨rfl, rfl, by decide⟩

/-- C4: whenever some enrolment-dates row has an empty Course, Enrolment
Date or Expiry Date column, check_ed's full scan accumulates a non-empty
error list and the load aborts: check_ed (and with it load_data on source
'ed') ends in the error path modelling process_error_log's SystemExit, so
no diffing or output follows.  The row-length hypothesis reflects the fixed
five-column file structure the validator indexes into; the first-column
hypothesis keeps load_data's row filter from dropping the rows. -/
theorem c4_fatal_abort (report_data : List Row)
    (h5 : ∀ r ∈ report_data, 5 ≤ r.length)
    (h0 : ∀ r ∈ report_data, fld r 0 ≠ [])
    (hbad : ∃ r ∈ report_data, fld r 2 = [] ∨ fld r 3 = [] ∨ fld r 4 = []) :
    ∃ errs, errs ≠ [] ∧ check_ed report_data = Except.error errs
      ∧ load_data report_data "ed" = Except.error errs := by
  obtain ⟨r, hr, hbadr⟩ := hbad
  have herr : check_ed_errors report_data ≠ [] := by
    rw [check_ed_errors_eq]
    refine catMap_ne_nil edRowErrors hr ?_
    unfold edRowErrors
    rcases hbadr with h | h | h <;> rw [if_pos h] <;> simp
  have hched : check_ed report_data
      = Except.error (check_ed_errors report_data) := by
    simp only [check_ed]
    rw [if_pos (List.length_pos.mpr herr)]
  have hfilt : report_data.filter (fun row => !(fld row 0 == []))
      = report_data :=
    List.filter_eq_self.mpr (fun x hx => by simpa using h0 x hx)
  refine ⟨check_ed_errors report_data, herr, hched, ?_⟩
  simp only [load_data]
  rw [if_pos trivial, hfilt, hched]

/-- C4 witness: a single row with an empty Course column. -/
theorem c4_fatal_abort_witness :
    ∃ errs, errs ≠ []
      ∧ check_ed [["FitNZ0001".toList, "Bob".toList, [],
          "2020-01-01".toList, "2020-02-01".toList]] = Except.error errs
      ∧ load_data [["FitNZ0001".toList, "Bob".toList, [],
          "2020-01-01".toList, "2020-02-01".toList]] "ed"
          = Except.error errs :=
  c4_fatal_abort
    [["FitNZ0001".toList, "Bob".toList, [],
      "2020-01-01".toList, "2020-02-01".toList]]
    (by decide) (by decide) (by decide)

/-- C10: whatever load_data returns normally consists exactly of the parsed
post-header rows whose first column is non-empty, so every returned row has
a non-empty first column.  The hypothesis that no parsed row is the empty
list reflects that the Python indexes row[0] (an empty csv row would raise
IndexError rather than be filtered). -/
theorem c10_load_filter (rows : List Row) (source : String)
    (data : List Row) (b : Bool) (w : List Str)
    (hrows : ∀ r ∈ rows, r ≠ [])
    (hok : load_data rows source = Except.ok (data, b, w)) :
    data = rows.filter (fun row => !(fld row 0 == []))
      ∧ ∀ r ∈ data, fld r 0 ≠ [] := by
  have hdata : data = rows.filter (fun row => !(fld row 0 == [])) := by
    simp only [load_data] at hok
    by_cases hs : source = "ed"
    · rw [if_pos hs] at hok
      cases hch : check_ed (rows.filter (fun row => !(fld row 0 == []))) with
      | error e =>
          rw [hch] at hok
          exact Except.noConfusion hok
      | ok v =>
          simp only [hch, Except.ok.injEq, Prod.mk.injEq] at hok
          exact hok.1.symm
    · rw [if_neg hs] at hok
      simp only [Except.ok.injEq, Prod.mk.injEq] at hok
      exact hok.1.symm
  refine ⟨hdata, ?_⟩
  intro r hrmem
  rw [hdata] at hrmem
  simpa using (List.mem_filter.mp hrmem).2

/-- C6: on any input whose first ten characters have the shape YYYY-MM-DD,
extract_date returns DD/MM/YYYY, reordering those components with '/'
separators. -/
theorem c6_extract_date (y1 y2 y3 y4 m1 m2 d1 d2 : Char) (rest date : Str)
    (hdate : date = [y1, y2, y3, y4, '-', m1, m2, '-', d1, d2] ++ rest) :
    extract_date date = [d1, d2, '/', m1, m2, '/', y1, y2, y3, y4] := by
  subst hdate
  have hdp : pySlice ([y1, y2, y3, y4, '-', m1, m2, '-', d1, d2] ++ rest) 0 10
      = [y1, y2, y3, y4, '-', m1, m2, '-', d1, d2] := by
    rw [show pySlice ([y1, y2, y3, y4, '-', m1, m2, '-', d1, d2] ++ rest) 0 10
          = ((([y1, y2, y3, y4, '-', m1, m2, '-', d1, d2] ++ rest).drop 0).take
              (10 - 0))
        from pySlice_nat _ 0 10 (Nat.zero_le _), List.drop_zero]
    exact List.take_left' (by simp)
  show pySlice (pySlice ([y1, y2, y3, y4, '-', m1, m2, '-', d1, d2] ++ rest) 0 10) 8 10
      ++ ['/']
      ++ pySlice (pySlice ([y1, y2, y3, y4, '-', m1, m2, '-', d1, d2] ++ rest) 0 10) 5 7
      ++ ['/']
      ++ pySlice (pySlice ([y1, y2, y3, y4, '-', m1, m2, '-', d1, d2] ++ rest) 0 10) 0 4
      = [d1, d2, '/', m1, m2, '/', y1, y2, y3, y4]
  rw [hdp]
  rw [show pySlice [y1, y2, y3, y4, '-', m1, m2, '-', d1, d2] 8 10
        = (([y1, y2, y3, y4, '-', m1, m2, '-', d1, d2].drop 8).take (10 - 8))
      from pySlice_nat _ 8 10 (by simp)]
  rw [show pySlice [y1, y2, y3, y4, '-', m1, m2, '-', d1, d2] 5 7
        = (([y1, y2, y3, y4, '-', m1, m2, '-', d1, d2].drop 5).take (7 - 5))
      from pySlice_nat _ 5 7 (by simp)]
  rw [show pySlice [y1, y2, y3, y4, '-', m1, m2, '-', d1, d2] 0 4
        = (([y1, y2, y3, y4, '-', m1, m2, '-', d1, d2].drop 0).take (4 - 0))
      from pySlice_nat _ 0 4 (by simp)]
  rfl

/-- C6 witness: the ISO-like timestamp "2020-06-15T00:00:00" normalizes to
"15/06/2020". -/
theorem c6_extract_date_witness :
    extract_date "2020-06-15T00:00:00".toList = "15/06/2020".toList :=
  c6_extract_date '2' '0' '2' '0' '0' '6' '1' '5' "T00:00:00".toList
    "2020-06-15T00:00:00".toList rfl

/-- C9: on any data column in which 'FitNZ' first occurs at position i with
at least four characters after the five marker characters,
extract_student_id returns the marker plus the next four characters — a
nine-character string. -/
theorem c9_extract_student_id (student : Row) (data_pos : Nat) (i : Nat)
    (hfind : strFindOpt (fld student data_pos) fitnz = some i)
    (hlen : i + 9 ≤ (fld student data_pos).length) :
    extract_student_id student data_pos
        = fitnz ++ ((fld student data_pos).drop (i + 5)).take 4
      ∧ (extract_student_id student data_pos).length = 9 := by
  obtain ⟨hile, htake⟩ := strFindOpt_spec hfind
  set s := fld student data_pos with hs
  have hpf : pyFind s fitnz = ((i : Nat) : Int) := by
    unfold pyFind
    rw [hfind]
  have hmain : extract_student_id student data_pos = (s.drop i).take 9 := by
    show pySlice s (pyFind s fitnz) (pyFind s fitnz + 9) = (s.drop i).take 9
    rw [hpf,
      show (((i : Nat) : Int) + 9) = (((i + 9 : Nat)) : Int) by push_cast; ring,
      pySlice_nat s i (i + 9) (by omega),
      show i + 9 - i = 9 from by omega]
  constructor
  · rw [hmain, show (9 : Nat) = 5 + 4 from rfl, List.take_add, List.drop_drop,
      ← htake]
    rfl
  · rw [hmain, List.length_take, List.length_drop]
    omega

/-- C9 witness: deriving from "ref FitNZ1234 other" returns the marker plus
"1234", the nine-character id "FitNZ1234". -/
theorem c9_extract_student_id_witness :
    extract_student_id ["ref FitNZ1234 other".toList] 0
        = fitnz ++ (("ref FitNZ1234 other".toList).drop (4 + 5)).take 4
      ∧ (extract_student_id ["ref FitNZ1234 other".toList] 0).length = 9 :=
  c9_extract_student_id ["ref FitNZ1234 other".toList] 0 4 rfl (by decide)

/-- C5: on any data column that contains the label, with a first digit at or
after the label's first occurrence, such that the text from that first digit
onward reads day '/' month '/' year followed by anything, where day and
month contain no '/' and the year is exactly four characters,
extract_course_date returns day + '/' + month + '/' + year. -/
theorem c5_extract_course_date (student : Row) (data_pos : Nat)
    (label day month year rest : Str) (i j : Nat)
    (hfind : strFindOpt (fld student data_pos) label = some i)
    (hdigit : ((fld student data_pos).drop i).findIdx? (fun ch => ch.isDigit)
        = some j)
    (hshape : ((fld student data_pos).drop i).drop j
        = day ++ '/' :: (month ++ '/' :: (year ++ rest)))
    (hday : '/' ∉ day) (hmonth : '/' ∉ month) (hyear : year.length = 4) :
    extract_course_date student data_pos label
      = some (day ++ ['/'] ++ month ++ ['/'] ++ year) := by
  obtain ⟨hile, _⟩ := strFindOpt_spec hfind
  unfold extract_course_date
  dsimp only
  set s := fld student data_pos with hs
  have hpf : pyFind s label = ((i : Nat) : Int) := by
    unfold pyFind
    rw [hfind]
  have hrem : pySliceFrom s (pyFind s label) = s.drop i := by
    rw [hpf]
    exact pySliceFrom_nat s i hile
  rw [hrem]
  split
  · rename_i heq
    rw [hdigit] at heq
    exact Option.noConfusion heq
  · rename_i ds heq
    rw [hdigit] at heq
    injection heq with hds
    subst hds
    have hjlt : j < (s.drop i).length := by
      by_contra hc
      push_neg at hc
      have hnil : (s.drop i).drop j = [] := List.drop_eq_nil_of_le hc
      rw [hshape] at hnil
      simp at hnil
    have hDR : pySliceFrom (s.drop i) ((j : Nat) : Int) = (s.drop i).drop j :=
      pySliceFrom_nat _ j (Nat.le_of_lt hjlt)
    rw [hDR, hshape]
    have hfs : pyFind (day ++ '/' :: (month ++ '/' :: (year ++ rest))) ['/']
        = ((day.length : Nat) : Int) := by
      unfold pyFind
      rw [strFindOpt_singleton hday]
    rw [hfs]
    have hdayEq : pySliceTo (day ++ '/' :: (month ++ '/' :: (year ++ rest)))
        ((day.length : Nat) : Int) = day := by
      rw [pySliceTo_nat]
      exact List.take_left _ _
    rw [hdayEq]
    have hdrm : pySliceFrom (day ++ '/' :: (month ++ '/' :: (year ++ rest)))
        (((day.length : Nat) : Int) + 1) = month ++ '/' :: (year ++ rest) := by
      rw [show (((day.length : Nat) : Int) + 1) = (((day.length + 1 : Nat)) : Int)
            by push_cast; ring,
        pySliceFrom_nat _ (day.length + 1)
          (by simp only [List.length_append, List.length_cons]; omega),
        show day ++ '/' :: (month ++ '/' :: (year ++ rest))
              = (day ++ ['/']) ++ (month ++ '/' :: (year ++ rest)) by simp,
        show day.length + 1 = (day ++ ['/']).length by simp]
      exact List.drop_left _ _
    rw [hdrm]
    have hss : pyFind (month ++ '/' :: (year ++ rest)) ['/']
        = ((month.length : Nat) : Int) := by
      unfold pyFind
      rw [strFindOpt_singleton hmonth]
    rw [hss]
    have hmonthEq : pySliceTo (month ++ '/' :: (year ++ rest))
        ((month.length : Nat) : Int) = month := by
      rw [pySliceTo_nat]
      exact List.take_left _ _
    rw [hmonthEq]
    have hyearEq : pySlice (month ++ '/' :: (year ++ rest))
        (((month.length : Nat) : Int) + 1) (((month.length : Nat) : Int) + 5)
        = year := by
      rw [show (((month.length : Nat) : Int) + 1)
            = (((month.length + 1 : Nat)) : Int) by push_cast; ring,
        show (((month.length : Nat) : Int) + 5)
            = (((month.length + 5 : Nat)) : Int) by push_cast; ring,
        pySlice_nat _ (month.length + 1) (month.length + 5)
          (by simp only [List.length_append, List.length_cons]; omega),
        show month.length + 5 - (month.length + 1) = 4 from by omega,
        show month ++ '/' :: (year ++ rest)
              = (month ++ ['/']) ++ (year ++ rest) by simp,
        show month.length + 1 = (month ++ ['/']).length by simp,
        List.drop_left]
      exact List.take_left' hyear
    rw [hyearEq]

/-- C5 witness: extracting with label "Course Start Date" from
"... Course Start Date: 03/04/2021 ..." yields "03/04/2021". -/
theorem c5_extract_course_date_witness :
    extract_course_date ["... Course Start Date: 03/04/2021 ...".toList] 0
        "Course Start Date".toList
      = some ("03".toList ++ ['/'] ++ "04".toList ++ ['/'] ++ "2021".toList) :=
  c5_extract_course_date ["... Course Start Date: 03/04/2021 ...".toList] 0
    "Course Start Date".toList "03".toList "04".toList "2021".toList
    " ...".toList 4 19 (by decide) (by decide) (by decide) (by decide)
    (by decide) (by decide)

/-- C3 counterexample: clean_date is not pure with respect to its input —
`student[date_pos] = extract_date(...)` (line 176) writes through the row
references held by the caller's list, so after the call the caller's single
row has changed. -/
theorem c3_pure_claim_counterexample :
    (clean_date [["2020-06-15T00:00:00".toList]] [0] 0).1
      ≠ [["2020-06-15T00:00:00".toList]] := by decide

/-- C3 amended: the reading stages extract_students, get_courses,
strip_cf_data and compare leave every pre-existing row unchanged (the
latter two only allocate fresh rows), but clean_date, add_student_id,
add_start_date and add_end_date mutate each row of the input list in place
(setting the date column, appending the derived field) and return a list of
those same rows.  References are assumed distinct and live, matching rows
freshly parsed from a file; the add_start/end_date parts also assume the
date extraction succeeds, where the Python would otherwise crash. -/
theorem c3_stage_mutation :
    (∀ (h : Heap) (students : List Nat) (date_pos r : Nat),
        students.Nodup → r ∈ students → r < h.length →
        readRow (clean_date h students date_pos).1 r
            = (readRow h r).set date_pos
                (extract_date (fld (readRow h r) date_pos))
          ∧ (clean_date h students date_pos).2 = students)
    ∧ (∀ (h : Heap) (students : List Nat) (data_pos r : Nat),
        students.Nodup → r ∈ students → r < h.length →
        readRow (add_student_id h students data_pos).1 r
            = readRow h r ++ [extract_student_id (readRow h r) data_pos]
          ∧ (add_student_id h students data_pos).2 = students)
    ∧ (∀ (h : Heap) (students : List Nat) (data_pos r : Nat),
        students.Nodup → r ∈ students → r < h.length →
        (∀ x ∈ students,
          (extract_course_date (readRow h x) data_pos
            "Course Start Date".toList).isSome = true) →
        readRow (add_start_date h students data_pos).1 r
            = readRow h r
              ++ [(extract_course_date (readRow h r) data_pos
                    "Course Start Date".toList).getD []]
          ∧ (add_start_date h students data_pos).2 = students)
    ∧ (∀ (h : Heap) (students : List Nat) (data_pos r : Nat),
        students.Nodup → r ∈ students → r < h.length →
        (∀ x ∈ students,
          (extract_course_date (readRow h x) data_pos
            "Course End Date".toList).isSome = true) →
        readRow (add_end_date h students data_pos).1 r
            = readRow h r
              ++ [(extract_course_date (readRow h r) data_pos
                    "Course End Date".toList).getD []]
          ∧ (add_end_date h students data_pos).2 = students)
    ∧ (∀ (h : Heap) (students : List Nat) (data_pos : Nat),
        (extract_students h students data_pos).1 = h)
    ∧ (∀ (h : Heap) (students : List Nat) (course_pos : Nat),
        (get_courses h students course_pos).1 = h)
    ∧ (∀ (h : Heap) (data : List Nat) (r : Nat), r < h.length →
        readRow (strip_cf_data h data).1 r = readRow h r)
    ∧ (∀ (h : Heap) (enrolment custom_field : List Nat)
        (e_pos c_pos es_pos cs_pos r : Nat), r < h.length →
        readRow
            (compare_st h enrolment custom_field e_pos c_pos es_pos cs_pos).1 r
          = readRow h r) := by
  refine ⟨?_, ?_, ?_, ?_, ?_, ?_, ?_, ?_⟩
  · intro h students date_pos r hnd hmem hlt
    exact ⟨mutMap_read_mem _ students h r hnd hmem hlt, rfl⟩
  · intro h students data_pos r hnd hmem hlt
    exact ⟨mutMap_read_mem _ students h r hnd hmem hlt, rfl⟩
  · intro h students data_pos r hnd hmem hlt _
    exact ⟨mutMap_read_mem _ students h r hnd hmem hlt, rfl⟩
  · intro h students data_pos r hnd hmem hlt _
    exact ⟨mutMap_read_mem _ students h r hnd hmem hlt, rfl⟩
  · intro h students data_pos
    rfl
  · intro h students course_pos
    rfl
  · intro h data r hlt
    unfold strip_cf_data
    obtain ⟨ext, hext⟩ :=
      foldl_fst_append
        (fun acc sref =>
          let s := readRow acc.1 sref
          (acc.1 ++ [[fld s 5, fld s 6, fld s 7]], acc.2 ++ [acc.1.length]))
        (fun acc x =>
          ⟨[[fld (readRow acc.1 x) 5, fld (readRow acc.1 x) 6,
             fld (readRow acc.1 x) 7]], rfl⟩)
        data h ([] : List Nat)
    rw [hext]
    exact readRow_append h ext r hlt
  · intro h enrolment custom_field e_pos c_pos es_pos cs_pos r hlt
    unfold compare_st
    obtain ⟨ext, hext⟩ :=
      foldl_fst_append
        (fun acc sref =>
          match compareInner (readRow acc.1 sref) e_pos c_pos es_pos cs_pos
              (custom_field.map (readRow acc.1)) with
          | [] => acc
          | row :: _ => (acc.1 ++ [row], acc.2 ++ [acc.1.length]))
        (fun acc x => by
          dsimp only
          rcases hcase : compareInner (readRow acc.1 x) e_pos c_pos es_pos
              cs_pos (custom_field.map (readRow acc.1)) with _ | ⟨row, rest2⟩
          · exact ⟨[], by simp⟩
          · exact ⟨[row], rfl⟩)
        enrolment h ([] : List Nat)
    rw [hext]
    exact readRow_append h ext r hlt

/-- C3 amended witness: each stage instantiated on a one-row heap. -/
theorem c3_stage_mutation_witness :
    (readRow (clean_date [["2020-06-15T00:00:00".toList]] [0] 0).1 0
        = (readRow [["2020-06-15T00:00:00".toList]] 0).set 0
            (extract_date (fld (readRow [["2020-06-15T00:00:00".toList]] 0) 0))
      ∧ (clean_date [["2020-06-15T00:00:00".toList]] [0] 0).2 = [0])
    ∧ (readRow (add_student_id [["ref FitNZ1234 other".toList]] [0] 0).1 0
        = readRow [["ref FitNZ1234 other".toList]] 0
            ++ [extract_student_id
                  (readRow [["ref FitNZ1234 other".toList]] 0) 0]
      ∧ (add_student_id [["ref FitNZ1234 other".toList]] [0] 0).2 = [0])
    ∧ (readRow (add_start_date
          [["FitNZ1234 Course Start Date: 03/04/2021 Course End Date: 03/04/2022".toList]]
          [0] 0).1 0
        = readRow
            [["FitNZ1234 Course Start Date: 03/04/2021 Course End Date: 03/04/2022".toList]]
            0
            ++ [(extract_course_date
                  (readRow
                    [["FitNZ1234 Course Start Date: 03/04/2021 Course End Date: 03/04/2022".toList]]
                    0) 0 "Course Start Date".toList).getD []]
      ∧ (add_start_date
          [["FitNZ1234 Course Start Date: 03/04/2021 Course End Date: 03/04/2022".toList]]
          [0] 0).2 = [0])
    ∧ (readRow (add_end_date
          [["FitNZ1234 Course Start Date: 03/04/2021 Course End Date: 03/04/2022".toList]]
          [0] 0).1 0
        = readRow
            [["FitNZ1234 Course Start Date: 03/04/2021 Course End Date: 03/04/2022".toList]]
            0
            ++ [(extract_course_date
                  (readRow
                    [["FitNZ1234 Course Start Date: 03/04/2021 Course End Date: 03/04/2022".toList]]
                    0) 0 "Course End Date".toList).getD []]
      ∧ (add_end_date
          [["FitNZ1234 Course Start Date: 03/04/2021 Course End Date: 03/04/2022".toList]]
          [0] 0).2 = [0])
    ∧ (extract_students [["ref FitNZ1234 other".toList]] [0] 0).1
        = [["ref FitNZ1234 other".toList]]
    ∧ (get_courses [["Intro (ABC-12-XYZ)".toList]] [0] 0).1
        = [["Intro (ABC-12-XYZ)".toList]]
    ∧ readRow (strip_cf_data [["ref FitNZ1234 other".toList]] [0]).1 0
        = readRow [["ref FitNZ1234 other".toList]] 0
    ∧ readRow
        (compare_st [["ref FitNZ1234 other".toList]] [0] [0] 1 1 0 0).1 0
        = readRow [["ref FitNZ1234 other".toList]] 0 :=
  ⟨c3_stage_mutation.1 _ [0] 0 0 (by decide) (by decide) (by decide),
   c3_stage_mutation.2.1 _ [0] 0 0 (by decide) (by decide) (by decide),
   c3_stage_mutation.2.2.1 _ [0] 0 0 (by decide) (by decide) (by decide)
     (by decide),
   c3_stage_mutation.2.2.2.1 _ [0] 0 0 (by decide) (by decide) (by decide)
     (by decide),
   c3_stage_mutation.2.2.2.2.1 _ [0] 0,
   c3_stage_mutation.2.2.2.2.2.1 _ [0] 0,
   c3_stage_mutation.2.2.2.2.2.2.1 _ [0] 0 (by decide),
   c3_stage_mutation.2.2.2.2.2.2.2 _ [0] [0] 1 1 0 0 0 (by decide)⟩

/-- C10 witness: a two-row input whose second row has an empty first field;
the returned data is the first row only. -/
theorem c10_load_filter_witness :
    ([["1".toList, "a".toList]] : List Row)
        = [["1".toList, "a".toList], [[], "b".toList]].filter
            (fun row => !(fld row 0 == []))
      ∧ ∀ r ∈ ([["1".toList, "a".toList]] : List Row), fld r 0 ≠ [] :=
  c10_load_filter [["1".toList, "a".toList], [[], "b".toList]] "cf"
    [["1".toList, "a".toList]] false [] (by decide) rfl

end EDFC
